import Mathlib

/-!
Verification of the rotki `DBHandler` accessor layer
(`rotkehlchen/db/dbhandler.py`) against its natural-language specification.

The SQLite tables are modelled as Lean lists (rows in insertion / rowid
order), the sqlcipher connection as an explicit `DBState` value threaded
through every operation, Python exceptions as `Except`, and the wall clock
read `ts_now()` as an explicit `now` parameter passed to the operations
that call it.  Python's `str(n)` on a non-negative integer is modelled by
`Nat.repr` and `int(s)` by `String.toNat?` / `String.toInt?`.
-/

namespace RotkiDB

/-! ## Decimal printing / parsing roundtrip

`update_last_write` stores `str(ts_now())` and `get_last_write_ts` reads it
back with `int(...)`.  We prove once and for all that the decimal
representation produced by `Nat.repr` parses back with `String.toNat?`.
-/

/-- Numeric value of a decimal digit character, as computed by the parser
inside `String.toNat?`. -/
def digitVal (c : Char) : Nat := c.toNat - '0'.toNat

theorem digitChar_isDigit (n : Nat) (h : n < 10) : (Nat.digitChar n).isDigit = true := by
  interval_cases n <;> decide

theorem digitVal_digitChar (n : Nat) (h : n < 10) : digitVal (Nat.digitChar n) = n := by
  interval_cases n <;> decide

theorem toDigitsCore_foldl (fuel : Nat) :
    ∀ (n : Nat) (ds : List Char), n < 10 ^ fuel →
      (Nat.toDigitsCore 10 fuel n ds).foldl (fun a c => a * 10 + digitVal c) 0
        = ds.foldl (fun a c => a * 10 + digitVal c) n := by
  induction fuel with
  | zero =>
    intro n ds hn
    have hn0 : n = 0 := by simpa using Nat.lt_one_iff.mp (by simpa using hn)
    subst hn0
    simp [Nat.toDigitsCore]
  | succ f ih =>
    intro n ds hn
    have hmod : n % 10 < 10 := Nat.mod_lt _ (by norm_num)
    by_cases hdiv : n / 10 = 0
    · have hlt : n < 10 := by omega
      simp only [Nat.toDigitsCore, hdiv, if_true]
      simp only [List.foldl_cons]
      have : digitVal (Nat.digitChar (n % 10)) = n % 10 := digitVal_digitChar _ hmod
      rw [this]
      congr 1
      omega
    · simp only [Nat.toDigitsCore, hdiv, if_false]
      have hlt10 : n / 10 < 10 ^ f := by
        rw [Nat.div_lt_iff_lt_mul (by norm_num)]
        calc n < 10 ^ (f + 1) := hn
        _ = 10 ^ f * 10 := by ring
      rw [ih (n / 10) (Nat.digitChar (n % 10) :: ds) hlt10]
      simp only [List.foldl_cons]
      have : digitVal (Nat.digitChar (n % 10)) = n % 10 := digitVal_digitChar _ hmod
      rw [this]
      congr 1
      omega

theorem toDigitsCore_all_digits (fuel : Nat) :
    ∀ (n : Nat) (ds : List Char), (∀ c ∈ ds, c.isDigit = true) →
      ∀ c ∈ Nat.toDigitsCore 10 fuel n ds, c.isDigit = true := by
  induction fuel with
  | zero => intro n ds hds; simpa [Nat.toDigitsCore] using hds
  | succ f ih =>
    intro n ds hds c hc
    have hmod : n % 10 < 10 := Nat.mod_lt _ (by norm_num)
    by_cases hdiv : n / 10 = 0
    · simp only [Nat.toDigitsCore, hdiv, if_true] at hc
      rcases List.mem_cons.mp hc with h | h
      · subst h; exact digitChar_isDigit _ hmod
      · exact hds c h
    · simp only [Nat.toDigitsCore, hdiv, if_false] at hc
      refine ih (n / 10) (Nat.digitChar (n % 10) :: ds) ?_ c hc
      intro d hd
      rcases List.mem_cons.mp hd with h | h
      · subst h; exact digitChar_isDigit _ hmod
      · exact hds d h

theorem toDigitsCore_suffix (fuel : Nat) :
    ∀ (n : Nat) (ds : List Char), ∃ l, Nat.toDigitsCore 10 fuel n ds = l ++ ds := by
  induction fuel with
  | zero => intro n ds; exact ⟨[], by simp [Nat.toDigitsCore]⟩
  | succ f ih =>
    intro n ds
    by_cases hdiv : n / 10 = 0
    · exact ⟨[Nat.digitChar (n % 10)], by simp [Nat.toDigitsCore, hdiv]⟩
    · obtain ⟨l, hl⟩ := ih (n / 10) (Nat.digitChar (n % 10) :: ds)
      refine ⟨l ++ [Nat.digitChar (n % 10)], ?_⟩
      simp only [Nat.toDigitsCore, hdiv, if_false]
      rw [hl]
      simp

theorem toDigitsCore_ne_nil (fuel n : Nat) (ds : List Char) :
    Nat.toDigitsCore 10 (fuel + 1) n ds ≠ [] := by
  by_cases hdiv : n / 10 = 0
  · simp [Nat.toDigitsCore, hdiv]
  · simp only [Nat.toDigitsCore, hdiv, if_false]
    obtain ⟨l, hl⟩ := toDigitsCore_suffix fuel (n / 10) (Nat.digitChar (n % 10) :: ds)
    rw [hl]
    simp

theorem lt_ten_pow_succ (n : Nat) : n < 10 ^ (n + 1) := by
  calc n < 2 ^ n := Nat.lt_two_pow n
  _ ≤ 10 ^ n := Nat.pow_le_pow_left (by norm_num) n
  _ ≤ 10 ^ (n + 1) := Nat.pow_le_pow_right (by norm_num) (Nat.le_succ n)

/-- Decimal roundtrip: parsing the string produced by `Nat.repr` gives
back the original number.  This is the `int(str(n)) == n` fact relied on
by the `last_write_ts` bookkeeping. -/
theorem toNat?_repr (n : Nat) : (Nat.repr n).toNat? = some n := by
  have hdig : ∀ c ∈ Nat.toDigits 10 n, c.isDigit = true :=
    toDigitsCore_all_digits (n + 1) n [] (by simp)
  have hne : Nat.toDigits 10 n ≠ [] := toDigitsCore_ne_nil n n []
  have hfold : (Nat.toDigits 10 n).foldl (fun a c => a * 10 + digitVal c) 0 = n :=
    toDigitsCore_foldl (n + 1) n [] (lt_ten_pow_succ n)
  have hrepr : Nat.repr n = List.asString (Nat.toDigits 10 n) := rfl
  rw [hrepr, String.toNat?]
  have hdata : (List.asString (Nat.toDigits 10 n)).data = Nat.toDigits 10 n := rfl
  have hisnat : (List.asString (Nat.toDigits 10 n)).isNat = true := by
    rw [String.isNat]
    have h1 : (List.asString (Nat.toDigits 10 n)).isEmpty = false := by
      rw [Bool.eq_false_iff]
      intro hcontra
      have := (String.isEmpty_iff _).mp hcontra
      apply hne
      have : (List.asString (Nat.toDigits 10 n)).data = ("" : String).data := by rw [this]
      simpa [hdata] using this
    have h2 : (List.asString (Nat.toDigits 10 n)).all (·.isDigit) = true := by
      rw [String.all_eq, hdata]
      rw [List.all_eq_true]
      exact hdig
    rw [h1, h2]
    rfl
  rw [hisnat]
  simp only [if_true]
  rw [String.foldl_eq, hdata]
  exact congrArg some hfold

/-! ## Python value model

`str_to_bool` and the row filter in `get_exchange_secrets` compare values
of dynamic type against string literals.  `PyVal` distinguishes a Python
string from a fetched row tuple so that the comparison `row == "literal"`
is modelled faithfully: in Python a tuple never equals a string. -/

/-- A Python runtime value as far as this module compares them: either a
string or a tuple (a fetched row). -/
inductive PyVal where
  | str : String → PyVal
  | tup : List String → PyVal

/-- Python `v == "lit"` for a value of dynamic type: true only when `v` is
a string equal to the literal; a tuple compared to a string is `False`. -/
def pyEqStr : PyVal → String → Bool
  | .str a, lit => a == lit
  | .tup _, _ => false

/-- Source: `def str_to_bool(s): return True if s == 'True' else False`. -/
def str_to_bool (s : PyVal) : Bool := pyEqStr s "True"

/-! ## Python dict model

Python `dict` assignment `d[k] = v`: replace the value in place when the
key exists, otherwise append the new pair. -/

/-- Python `d[k] = v` on an association list. -/
def dictInsert (d : List (String × α)) (k : String) (v : α) : List (String × α) :=
  if d.any (fun p => p.1 == k) then d.map (fun p => if p.1 == k then (k, v) else p)
  else d ++ [(k, v)]

/-- Python `d[k]` lookup, `none` when absent. -/
def dictGet (d : List (String × α)) (k : String) : Option α :=
  (d.find? (fun p => p.1 == k)).map (·.2)

/-- Python `k in d`. -/
def dictContains (d : List (String × α)) (k : String) : Bool :=
  d.any (fun p => p.1 == k)

/-! ## Data model

One record per table of the schema the handler touches; rows are kept in
rowid (insertion) order, matching what an unordered `SELECT` returns. -/

/-- A row of the `trades` table. -/
structure Trade where
  id : Nat
  time : Int
  location : String
  pair : String
  trade_type : String
  amount : String
  rate : String
  fee : String
  fee_currency : String
  link : String
  notes : String
deriving DecidableEq, Repr

/-- The decrypted contents of one user database, table by table. -/
structure DBState where
  settings : List (String × String)
  multisettings : List (String × String)
  timed_balances : List (Int × String × String × String)
  timed_location_data : List (Int × String × String)
  blockchain_accounts : List (String × String)
  current_balances : List (String × String)
  user_credentials : List (String × String × String)
  trades : List Trade
  next_trade_id : Nat
deriving DecidableEq, Repr

/-- A fresh database with no rows. -/
def emptyDB : DBState :=
  { settings := [], multisettings := [], timed_balances := [], timed_location_data := []
    blockchain_accounts := [], current_balances := [], user_credentials := []
    trades := [], next_trade_id := 1 }

/-- Python exceptions raised by the handler. -/
inductive DBError where
  | authenticationError : String → DBError
  | inputError : String → DBError
deriving DecidableEq, Repr

/-- SQLite `INSERT OR REPLACE` on a table whose first column is the
primary key: the conflicting row is deleted and the new row appended. -/
def insertOrReplace (rows : List (String × String)) (name value : String) :
    List (String × String) :=
  rows.filter (fun r => r.1 != name) ++ [(name, value)]

/-- SQLite `INSERT OR IGNORE`: keep the table unchanged when a row with
the same key exists, otherwise append. -/
def insertOrIgnore (rows : List (String × String)) (name value : String) :
    List (String × String) :=
  if rows.any (fun r => r.1 == name) then rows else rows ++ [(name, value)]

/-- Values of the settings rows with the given name, in row order
(the result of `SELECT value FROM settings where name=?`). -/
def settingValues (rows : List (String × String)) (name : String) : List String :=
  (rows.filter (fun r => r.1 == name)).map (·.2)

/-! ## Settings store operations -/

def DEFAULT_START_DATE : String := "01/08/2015"

def DEFAULT_UI_FLOATING_PRECISION : Int := 2

def ROTKEHLCHEN_DB_VERSION : Nat := 1

/-- `update_last_write`: upsert `last_write_ts := str(ts_now())`; the
clock read `ts_now()` is the explicit `now` argument. -/
def update_last_write (now : Nat) (s : DBState) : DBState :=
  { s with settings := insertOrReplace s.settings "last_write_ts" (Nat.repr now) }

/-- `get_last_write_ts`: `0` when the setting is absent, else
`int(value)`; `none` models the `ValueError` of a failed parse. -/
def get_last_write_ts (s : DBState) : Option Nat :=
  match settingValues s.settings "last_write_ts" with
  | [] => some 0
  | v :: _ => v.toNat?

/-- `update_last_data_upload_ts`. -/
def update_last_data_upload_ts (now : Nat) (s : DBState) : DBState :=
  { s with settings := insertOrReplace s.settings "last_data_upload_ts" (Nat.repr now) }

/-- `get_last_data_upload_ts`. -/
def get_last_data_upload_ts (s : DBState) : Option Nat :=
  match settingValues s.settings "last_data_upload_ts" with
  | [] => some 0
  | v :: _ => v.toNat?

/-- Python `str(b)` for a bool. -/
def pyStrOfBool (b : Bool) : String := if b then "True" else "False"

/-- `update_premium_sync`: upsert `premium_should_sync := str(should_sync)`. -/
def update_premium_sync (b : Bool) (s : DBState) : DBState :=
  { s with settings := insertOrReplace s.settings "premium_should_sync" (pyStrOfBool b) }

/-- `get_premium_sync`: `False` when the setting is absent, otherwise
`str_to_bool(query[0])`.  Note that the source passes the whole fetched
row `query[0]` — a 1-tuple — and not `query[0][0]`, which `PyVal.tup`
records. -/
def get_premium_sync (s : DBState) : Bool :=
  match settingValues s.settings "premium_should_sync" with
  | [] => false
  | v :: _ => str_to_bool (PyVal.tup [v])

/-- The typed value a settings key carries after `get_settings`'s
read-time coercion. -/
inductive SettingVal where
  | intv : Int → SettingVal
  | boolv : Bool → SettingVal
  | strv : String → SettingVal
deriving DecidableEq, Repr

/-- One iteration of the `for q in query` loop of `get_settings`:
coerce the row by key name and store it in the result dict; `none`
models the `ValueError` of a failed `int(...)`. -/
def coerceSetting (acc : List (String × SettingVal)) (row : String × String) :
    Option (List (String × SettingVal)) :=
  if row.1 == "version" then
    (String.toInt? row.2).map (fun i => dictInsert acc "db_version" (.intv i))
  else if row.1 == "last_write_ts" then
    (String.toInt? row.2).map (fun i => dictInsert acc "last_write_ts" (.intv i))
  else if row.1 == "premium_should_sync" then
    some (dictInsert acc "premium_should_sync" (.boolv (str_to_bool (PyVal.str row.2))))
  else if row.1 == "last_data_upload_ts" then
    (String.toInt? row.2).map (fun i => dictInsert acc "last_data_upload_ts" (.intv i))
  else if row.1 == "ui_floating_precision" then
    (String.toInt? row.2).map (fun i => dictInsert acc "ui_floating_precision" (.intv i))
  else
    some (dictInsert acc row.1 (.strv row.2))

/-- The default-population block at the end of `get_settings`: fill in
`historical_data_start`, `eth_rpc_port` and `ui_floating_precision` when
absent from the result dict. -/
def fillDefaults (settings : List (String × SettingVal)) : List (String × SettingVal) :=
  let s1 := if dictContains settings "historical_data_start" then settings
    else dictInsert settings "historical_data_start" (.strv DEFAULT_START_DATE)
  let s2 := if dictContains s1 "eth_rpc_port" then s1
    else dictInsert s1 "eth_rpc_port" (.strv "8545")
  if dictContains s2 "ui_floating_precision" then s2
  else dictInsert s2 "ui_floating_precision" (.intv DEFAULT_UI_FLOATING_PRECISION)

/-- `get_settings`: read every settings row, coerce by key name, then
fill read-time defaults. -/
def get_settings (s : DBState) : Option (List (String × SettingVal)) :=
  (s.settings.foldlM coerceSetting []).map fillDefaults

/-- `get_settings` as a state-passing call: the body runs a single
`SELECT` and no write, so the database state passes through unchanged. -/
def get_settings_call (s : DBState) : Option (List (String × SettingVal)) × DBState :=
  (get_settings s, s)

/-- `get_main_currency`: "USD" when the key is absent. -/
def get_main_currency (s : DBState) : String :=
  match settingValues s.settings "main_currency" with
  | [] => "USD"
  | v :: _ => v

/-- `set_main_currency`: upsert then `update_last_write`. -/
def set_main_currency (now : Nat) (currency : String) (s : DBState) : DBState :=
  update_last_write now
    { s with settings := insertOrReplace s.settings "main_currency" currency }

/-- `set_settings`: bulk upsert of the given pairs, then `update_last_write`. -/
def set_settings (now : Nat) (kvs : List (String × String)) (s : DBState) : DBState :=
  update_last_write now
    { s with settings := kvs.foldl (fun rows kv => insertOrReplace rows kv.1 kv.2) s.settings }

/-! ## Multi-value settings store -/

/-- `add_to_ignored_assets`: plain `INSERT` of an `ignored_asset` row.
The source commits but does not call `update_last_write`. -/
def add_to_ignored_assets (asset : String) (s : DBState) : DBState :=
  { s with multisettings := s.multisettings ++ [("ignored_asset", asset)] }

/-- `remove_from_ignored_assets`: `DELETE` matching category and value;
no `update_last_write` in the source. -/
def remove_from_ignored_assets (asset : String) (s : DBState) : DBState :=
  { s with multisettings :=
      s.multisettings.filter (fun r => !(r.1 == "ignored_asset" && r.2 == asset)) }

/-- `get_ignored_assets`. -/
def get_ignored_assets (s : DBState) : List String :=
  (s.multisettings.filter (fun r => r.1 == "ignored_asset")).map (·.2)

/-- `write_owned_tokens`: delete every `eth_token` row, bulk-insert the
new list, commit, then `update_last_write`. -/
def write_owned_tokens (now : Nat) (tokens : List String) (s : DBState) : DBState :=
  update_last_write now
    { s with multisettings :=
        s.multisettings.filter (fun r => !(r.1 == "eth_token"))
          ++ tokens.map (fun t => ("eth_token", t)) }

/-- `get_owned_tokens`. -/
def get_owned_tokens (s : DBState) : List String :=
  (s.multisettings.filter (fun r => r.1 == "eth_token")).map (·.2)

/-! ## Structured record stores -/

/-- `add_multiple_balances`: bulk append of
`(time, currency, amount, usd_value)` rows, then `update_last_write`. -/
def add_multiple_balances (now : Nat) (balances : List (Int × String × String × String))
    (s : DBState) : DBState :=
  update_last_write now { s with timed_balances := s.timed_balances ++ balances }

/-- `add_multiple_location_data`: bulk append of `(time, location,
usd_value)` rows, then `update_last_write`. -/
def add_multiple_location_data (now : Nat) (location_data : List (Int × String × String))
    (s : DBState) : DBState :=
  update_last_write now
    { s with timed_location_data := s.timed_location_data ++ location_data }

/-- `add_blockchain_account`: plain `INSERT`, then `update_last_write`. -/
def add_blockchain_account (now : Nat) (blockchain account : String) (s : DBState) : DBState :=
  update_last_write now
    { s with blockchain_accounts := s.blockchain_accounts ++ [(blockchain, account)] }

/-- `remove_blockchain_account`: count the matching rows first; raise
`InputError` when none, otherwise delete them and `update_last_write`. -/
def remove_blockchain_account (now : Nat) (blockchain account : String) (s : DBState) :
    Except DBError DBState :=
  if (s.blockchain_accounts.filter (fun r => r.1 == blockchain && r.2 == account)).length = 0 then
    .error (.inputError
      ("Tried to remove non-existing " ++ blockchain ++ " account " ++ account))
  else
    .ok (update_last_write now
      { s with blockchain_accounts :=
          s.blockchain_accounts.filter (fun r => !(r.1 == blockchain && r.2 == account)) })

/-- `add_fiat_balance`: `INSERT OR REPLACE` by asset, then `update_last_write`. -/
def add_fiat_balance (now : Nat) (currency amount : String) (s : DBState) : DBState :=
  update_last_write now
    { s with current_balances := insertOrReplace s.current_balances currency amount }

/-- `remove_fiat_balance`: `DELETE` by asset (silent no-op when absent),
then `update_last_write`. -/
def remove_fiat_balance (now : Nat) (currency : String) (s : DBState) : DBState :=
  update_last_write now
    { s with current_balances := s.current_balances.filter (fun r => !(r.1 == currency)) }

/-- `get_fiat_balances`: mapping asset → amount built row by row. -/
def get_fiat_balances (s : DBState) : List (String × String) :=
  s.current_balances.foldl (fun acc r => dictInsert acc r.1 r.2) []

/-! ## Exchange credentials -/

/-- Modelled from the spec: the supported-exchange registry
(`rotkehlchen.constants.SUPPORTED_EXCHANGES`, not part of the sources
here) is "a fixed set of valid exchange name strings" consulted by
`add_exchange`; its exact members are immaterial to the claims. -/
def SUPPORTED_EXCHANGES : List String := ["kraken", "poloniex", "bittrex", "binance"]

/-- `add_exchange`: `InputError` for an unsupported name, else insert the
credentials row and `update_last_write`. -/
def add_exchange (now : Nat) (name api_key api_secret : String) (s : DBState) :
    Except DBError DBState :=
  if !(SUPPORTED_EXCHANGES.contains name) then
    .error (.inputError ("Unsupported exchange " ++ name))
  else
    .ok (update_last_write now
      { s with user_credentials := s.user_credentials ++ [(name, api_key, api_secret)] })

/-- `remove_exchange`: `DELETE` by name, then `update_last_write`. -/
def remove_exchange (now : Nat) (name : String) (s : DBState) : DBState :=
  update_last_write now
    { s with user_credentials := s.user_credentials.filter (fun r => !(r.1 == name)) }

/-- `get_exchange_secrets`: iterate over every `user_credentials` row,
`continue` when `entry == 'rotkehlchen'` — the comparison of the fetched
3-tuple against a string, kept as written — else store the row under its
name. -/
def get_exchange_secrets (s : DBState) : List (String × (String × String)) :=
  s.user_credentials.foldl
    (fun acc entry =>
      if pyEqStr (PyVal.tup [entry.1, entry.2.1, entry.2.2]) "rotkehlchen" then acc
      else dictInsert acc entry.1 (entry.2.1, entry.2.2))
    []

/-- SQLite `INSERT OR REPLACE` on `user_credentials` (primary key `name`). -/
def credInsertOrReplace (rows : List (String × String × String))
    (name api_key api_secret : String) : List (String × String × String) :=
  rows.filter (fun r => r.1 != name) ++ [(name, api_key, api_secret)]

/-- `set_rotkehlchen_premium`: upsert the reserved "rotkehlchen" row;
deliberately does NOT call `update_last_write` (see the source comment
about fresh machines needing an empty last write ts). -/
def set_rotkehlchen_premium (api_key api_secret : String) (s : DBState) : DBState :=
  { s with user_credentials :=
      credInsertOrReplace s.user_credentials "rotkehlchen" api_key api_secret }

/-- `get_rotkehlchen_premium`: the reserved row's key pair when exactly
one row matches, else `None`. -/
def get_rotkehlchen_premium (s : DBState) : Option (String × String) :=
  match (s.user_credentials.filter (fun r => r.1 == "rotkehlchen")).map
      (fun r => (r.2.1, r.2.2)) with
  | [r] => some r
  | _ => none

/-! ## External trades -/

/-- `add_external_trade`: plain `INSERT`; the auto-increment `id` column
is modelled by `next_trade_id`.  No `update_last_write` in the source. -/
def add_external_trade (time : Int)
    (location pair trade_type amount rate fee fee_currency link notes : String)
    (s : DBState) : DBState :=
  { s with
    trades := s.trades ++ [{ id := s.next_trade_id, time, location, pair, trade_type,
                             amount, rate, fee, fee_currency, link, notes }]
    next_trade_id := s.next_trade_id + 1 }

/-- `edit_external_trade`: `UPDATE ... WHERE id=?`; when `rowcount` is
zero return `(False, message)` without committing (the update matched
nothing, so the table is unchanged either way), else commit and return
`(True, '')`.  No `update_last_write` in the source. -/
def edit_external_trade (trade_id : Nat) (time : Int)
    (location pair trade_type amount rate fee fee_currency link notes : String)
    (s : DBState) : (Bool × String) × DBState :=
  let updated := s.trades.map (fun t =>
    if t.id == trade_id then
      { t with time, location, pair, trade_type, amount, rate, fee, fee_currency, link, notes }
    else t)
  if (s.trades.filter (fun t => t.id == trade_id)).length = 0 then
    ((false, "Tried to edit non existing external trade id"), { s with trades := updated })
  else
    ((true, ""), { s with trades := updated })

/-- `delete_external_trade`: `DELETE ... WHERE id=?`; `(False, message)`
when `rowcount` is zero, else commit and `(True, '')`. -/
def delete_external_trade (trade_id : Nat) (s : DBState) : (Bool × String) × DBState :=
  let remaining := s.trades.filter (fun t => !(t.id == trade_id))
  if (s.trades.filter (fun t => t.id == trade_id)).length = 0 then
    ((false, "Tried to delete non-existing external trade"), { s with trades := remaining })
  else
    ((true, ""), { s with trades := remaining })

/-- Python truthiness of the optional timestamp arguments: `None` and `0`
are both falsy. -/
def truthy : Option Int → Bool
  | none => false
  | some x => x != 0

/-- The time conditions `get_external_trades` appends to its `WHERE`
clause, mirroring the `if from_ts: ... if to_ts: ... elif to_ts:`
truthiness branching of the source. -/
def tradeTimeCond (from_ts to_ts : Option Int) (t : Trade) : Bool :=
  if truthy from_ts then
    if truthy to_ts then
      decide (from_ts.getD 0 ≤ t.time) && decide (t.time ≤ to_ts.getD 0)
    else decide (from_ts.getD 0 ≤ t.time)
  else if truthy to_ts then decide (t.time ≤ to_ts.getD 0)
  else true

/-- `get_external_trades`: rows with `location="external"` and the
truthiness-selected time bounds, `ORDER BY time ASC`. -/
def get_external_trades (from_ts to_ts : Option Int) (s : DBState) : List Trade :=
  (s.trades.filter (fun t => t.location == "external" && tradeTimeCond from_ts to_ts t)).mergeSort
    (fun a b => decide (a.time ≤ b.time))

/-! ## Connection manager (`__init__`)

The sqlcipher engine itself is not part of the sources; following the
spec's capability contract, the on-disk file is a passphrase together
with the decrypted table contents, and running the schema script against
an existing file whose passphrase differs fails with a decryption-layer
`DatabaseError`. -/

/-- An encrypted on-disk `rotkehlchen.db` file: the passphrase it was
written with and the decrypted contents.  Modelled from the spec: the
encryption engine is consumed via the capability interface "open with
passphrase and KDF iteration count". -/
structure DiskFile where
  passphrase : String
  db : DBState
deriving DecidableEq, Repr

/-- Modelled from the spec: `DBHandler.__init__` — connect, run the
idempotent schema-creation script (which surfaces a decryption-layer
`DatabaseError` iff the file exists and the passphrase is wrong, turned
into `AuthenticationError`), then `INSERT OR IGNORE` the `version` row
and commit.  Returns the handler's view paired with the resulting
on-disk file state. -/
def dbhandler_init (disk : Option DiskFile) (password : String) :
    Except DBError DBState × Option DiskFile :=
  match disk with
  | none =>
      let db := { emptyDB with
        settings := insertOrIgnore emptyDB.settings "version" (Nat.repr ROTKEHLCHEN_DB_VERSION) }
      (.ok db, some ⟨password, db⟩)
  | some f =>
      if f.passphrase == password then
        let db := { f.db with
          settings := insertOrIgnore f.db.settings "version" (Nat.repr ROTKEHLCHEN_DB_VERSION) }
        (.ok db, some ⟨password, db⟩)
      else
        (.error (.authenticationError "Wrong password while decrypting the database"), some f)

/-! ## Helper lemmas -/

instance {ε α : Type} [DecidableEq ε] [DecidableEq α] : DecidableEq (Except ε α) := fun a b =>
  match a, b with
  | .ok x, .ok y => if h : x = y then .isTrue (by rw [h]) else .isFalse (by simp [h])
  | .error x, .error y => if h : x = y then .isTrue (by rw [h]) else .isFalse (by simp [h])
  | .ok _, .error _ => .isFalse (by simp)
  | .error _, .ok _ => .isFalse (by simp)

theorem settingValues_insertOrReplace_self (rows : List (String × String)) (k v : String) :
    settingValues (insertOrReplace rows k v) k = [v] := by
  simp only [settingValues, insertOrReplace, List.filter_append, List.filter_filter]
  have h : ∀ r : String × String, (r.1 == k && r.1 != k) = false := by
    intro r
    cases hb : r.1 == k <;> simp [bne, hb]
  simp only [h, List.filter_false, List.nil_append]
  simp [List.filter_cons]

theorem get_last_write_ts_update (now : Nat) (s : DBState) :
    get_last_write_ts (update_last_write now s) = some now := by
  simp only [get_last_write_ts, update_last_write, settingValues_insertOrReplace_self]
  exact toNat?_repr now

theorem pyEqStr_tup (l : List String) (lit : String) : pyEqStr (PyVal.tup l) lit = false := rfl

/-- The in-place update done by `dictInsert` never changes which entries
match a key: the replaced entry already had key `k`. -/
theorem updKey_beq (k k' : String) (v : α) (q : String × α) :
    ((if q.1 == k then (k, v) else q).1 == k') = (q.1 == k') := by
  cases hq : q.1 == k with
  | false => simp only [hq, Bool.false_eq_true, if_false]
  | true =>
    have hqk : q.1 = k := by simpa using hq
    simp [hq, hqk]

theorem any_map_upd (d : List (String × α)) (k k' : String) (v : α) :
    (d.map (fun p => if p.1 == k then (k, v) else p)).any (fun p => p.1 == k')
      = d.any (fun p => p.1 == k') := by
  induction d with
  | nil => rfl
  | cons e d ih => simp only [List.map_cons, List.any_cons, ih, updKey_beq k k' v e]

theorem dictContains_dictInsert_self (d : List (String × α)) (k : String) (v : α) :
    dictContains (dictInsert d k v) k = true := by
  unfold dictContains dictInsert
  cases h : d.any (fun p => p.1 == k) with
  | false => simp [h]
  | true => simp only [h, if_true, any_map_upd d k k v, h]

theorem dictContains_dictInsert_mono (d : List (String × α)) (k k' : String) (v : α)
    (h : dictContains d k' = true) : dictContains (dictInsert d k v) k' = true := by
  unfold dictContains dictInsert
  unfold dictContains at h
  cases ha : d.any (fun p => p.1 == k) with
  | false => simp [ha, h]
  | true => simp only [ha, if_true, any_map_upd d k k' v, h]

theorem dictContains_dictInsert_of_ne (d : List (String × α)) (k k' : String) (v : α)
    (hne : (k == k') = false) :
    dictContains (dictInsert d k v) k' = dictContains d k' := by
  unfold dictContains dictInsert
  cases ha : d.any (fun p => p.1 == k) with
  | false => simp [ha, hne]
  | true => simp only [ha, if_true, any_map_upd d k k' v]

theorem find?_map_upd_of_ne (d : List (String × α)) (k k' : String) (v : α)
    (hne : (k == k') = false) :
    (d.map (fun p => if p.1 == k then (k, v) else p)).find? (fun p => p.1 == k')
      = d.find? (fun p => p.1 == k') := by
  induction d with
  | nil => rfl
  | cons e d ih =>
    cases he : e.1 == k with
    | true =>
      have hek : e.1 = k := by simpa using he
      have hfe : (if e.1 == k then (k, v) else e) = (k, v) := by simp [he]
      have hpe1 : ¬(((k, v) : String × α).1 == k') = true := by simp [hne]
      have hpe2 : ¬(e.1 == k') = true := by rw [hek]; simp [hne]
      simp only [List.map_cons, hfe]
      rw [List.find?_cons_of_neg (p := fun q : String × α => q.1 == k') _ hpe1,
        List.find?_cons_of_neg (p := fun q : String × α => q.1 == k') _ hpe2]
      exact ih
    | false =>
      have hfe : (if e.1 == k then (k, v) else e) = e := by simp [he]
      simp only [List.map_cons, hfe]
      cases hek : e.1 == k' with
      | true =>
        rw [List.find?_cons_of_pos (p := fun q : String × α => q.1 == k') _ hek,
          List.find?_cons_of_pos (p := fun q : String × α => q.1 == k') _ hek]
      | false =>
        rw [List.find?_cons_of_neg (p := fun q : String × α => q.1 == k') _ (by simp [hek]),
          List.find?_cons_of_neg (p := fun q : String × α => q.1 == k') _ (by simp [hek])]
        exact ih

theorem find?_map_upd_self (d : List (String × α)) (k : String) (v : α)
    (ha : d.any (fun p => p.1 == k) = true) :
    (d.map (fun p => if p.1 == k then (k, v) else p)).find? (fun p => p.1 == k)
      = some (k, v) := by
  induction d with
  | nil => simp at ha
  | cons e d ih =>
    cases he : e.1 == k with
    | true =>
      have hfe : (if e.1 == k then (k, v) else e) = (k, v) := by simp [he]
      simp only [List.map_cons, hfe]
      rw [List.find?_cons_of_pos (p := fun q : String × α => q.1 == k) _ (by simp)]
    | false =>
      have hfe : (if e.1 == k then (k, v) else e) = e := by simp [he]
      simp only [List.any_cons, he, Bool.false_or] at ha
      simp only [List.map_cons, hfe]
      rw [List.find?_cons_of_neg (p := fun q : String × α => q.1 == k) _ (by simp [he])]
      exact ih ha

theorem dictGet_dictInsert_self (d : List (String × α)) (k : String) (v : α) :
    dictGet (dictInsert d k v) k = some v := by
  unfold dictGet dictInsert
  cases ha : d.any (fun p => p.1 == k) with
  | false =>
    simp only [ha, Bool.false_eq_true, if_false]
    have hnone : d.find? (fun p => p.1 == k) = none := by
      rw [List.find?_eq_none]
      intro x hx hpx
      have hany : d.any (fun p => p.1 == k) = true := List.any_eq_true.mpr ⟨x, hx, hpx⟩
      rw [hany] at ha
      cases ha
    rw [List.find?_append, hnone]
    simp
  | true =>
    simp only [ha, if_true, find?_map_upd_self d k v ha]
    rfl

theorem dictGet_dictInsert_of_ne (d : List (String × α)) (k k' : String) (v : α)
    (hne : (k == k') = false) :
    dictGet (dictInsert d k v) k' = dictGet d k' := by
  unfold dictGet dictInsert
  cases ha : d.any (fun p => p.1 == k) with
  | false =>
    simp only [ha, Bool.false_eq_true, if_false]
    rw [List.find?_append]
    cases hf : d.find? (fun p => p.1 == k') with
    | some q => simp
    | none => simp [List.find?_cons, hne]
  | true =>
    simp only [ha, if_true, find?_map_upd_of_ne d k k' v hne]

/-! ## Claim theorems -/

theorem get_exchange_secrets_fold :
    ∀ (l : List (String × String × String)) (acc : List (String × (String × String)))
      (entry : String × String × String),
      entry ∈ l ∨ dictContains acc entry.1 = true →
      dictContains (l.foldl (fun acc e =>
        if pyEqStr (PyVal.tup [e.1, e.2.1, e.2.2]) "rotkehlchen" then acc
        else dictInsert acc e.1 (e.2.1, e.2.2)) acc) entry.1 = true := by
  intro l
  induction l with
  | nil =>
    intro acc entry hor
    rcases hor with h1 | h1
    · cases h1
    · simpa using h1
  | cons e l ih =>
    intro acc entry hor
    simp only [List.foldl_cons, pyEqStr_tup, Bool.false_eq_true, if_false]
    rcases hor with h1 | h1
    · rcases List.mem_cons.mp h1 with h2 | h2
      · subst h2
        exact ih _ _ (Or.inr (dictContains_dictInsert_self acc entry.1 _))
      · exact ih _ _ (Or.inl h2)
    · exact ih _ _ (Or.inr (dictContains_dictInsert_mono acc e.1 entry.1 _ h1))

/-- C2: the exclusion filter of `get_exchange_secrets` compares the whole
fetched row (a tuple) to the string "rotkehlchen", which never matches, so
for every database state the returned mapping contains an entry for every
`user_credentials` row — the reserved "rotkehlchen" row included when it
exists. -/
theorem get_exchange_secrets_keeps_every_row (s : DBState)
    (entry : String × String × String) (h : entry ∈ s.user_credentials) :
    dictContains (get_exchange_secrets s) entry.1 = true := by
  unfold get_exchange_secrets
  exact get_exchange_secrets_fold s.user_credentials [] entry (Or.inl h)

/-- Witness for C2 at a state holding only the reserved credential row:
the returned mapping still contains the "rotkehlchen" entry. -/
theorem get_exchange_secrets_keeps_every_row_witness :
    dictContains (get_exchange_secrets
      { emptyDB with user_credentials := [("rotkehlchen", "key", "secret")] })
      "rotkehlchen" = true :=
  get_exchange_secrets_keeps_every_row
    { emptyDB with user_credentials := [("rotkehlchen", "key", "secret")] }
    ("rotkehlchen", "key", "secret") (by simp)

/-- C3 (code bug): the premium-sync setting does not round-trip.
`get_premium_sync` passes the whole fetched row — not its first column —
to `str_to_bool`, so after `update_premium_sync(True)` it still returns
`False`; the absent-key default `False` does hold. -/
theorem premium_sync_roundtrip_fails :
    get_premium_sync (update_premium_sync true emptyDB) = false
    ∧ get_premium_sync emptyDB = false := by decide

theorem get_owned_tokens_write (n : Nat) (ts : List String) (s : DBState) :
    get_owned_tokens (write_owned_tokens n ts s) = ts := by
  simp only [get_owned_tokens, write_owned_tokens, update_last_write, List.filter_append]
  have h1 : (s.multisettings.filter (fun r => !(r.1 == "eth_token"))).filter
      (fun r => r.1 == "eth_token") = [] := by
    rw [List.filter_filter]
    have hp : ∀ r : String × String, (r.1 == "eth_token" && !(r.1 == "eth_token")) = false := by
      intro r
      cases hr : r.1 == "eth_token" <;> simp [hr]
    simp only [hp, List.filter_false]
  have h2 : (ts.map (fun t => (("eth_token", t) : String × String))).filter
      (fun r => r.1 == "eth_token") = ts.map (fun t => ("eth_token", t)) := by
    induction ts with
    | nil => rfl
    | cons t ts ih => simp [List.filter_cons, ih]
  rw [h1, h2, List.nil_append, List.map_map]
  simp [Function.comp]

/-- C5: `write_owned_tokens` is a full replace with no merge: after any
two consecutive writes the owned-token list is exactly the second
argument, whatever the starting state. -/
theorem write_owned_tokens_full_replace (s : DBState) (xs ys : List String) (n1 n2 : Nat) :
    get_owned_tokens (write_owned_tokens n2 ys (write_owned_tokens n1 xs s)) = ys :=
  get_owned_tokens_write n2 ys (write_owned_tokens n1 xs s)

/-- C9 (engine behaviour modelled from the spec): opening an existing
encrypted store with a wrong passphrase fails with `AuthenticationError`
and leaves the on-disk file untouched. -/
theorem open_wrong_passphrase (f : DiskFile) (password : String)
    (h : f.passphrase ≠ password) :
    dbhandler_init (some f) password
      = (.error (.authenticationError "Wrong password while decrypting the database"),
         some f) := by
  have hb : (f.passphrase == password) = false := by simp [h]
  simp [dbhandler_init, hb]

/-- Witness for C9 at a concrete file and passphrase pair. -/
theorem open_wrong_passphrase_witness :
    dbhandler_init (some ⟨"hunter2", emptyDB⟩) "hunter3"
      = (.error (.authenticationError "Wrong password while decrypting the database"),
         some ⟨"hunter2", emptyDB⟩) :=
  open_wrong_passphrase ⟨"hunter2", emptyDB⟩ "hunter3" (by decide)

/-- C10: `get_external_trades` tests its bounds by truthiness, so a `0`
bound behaves exactly as an omitted bound, and with no truthy bound the
call returns all external trades ordered by time. -/
theorem get_external_trades_zero_bound (s : DBState) :
    get_external_trades none (some 0) s = get_external_trades none none s
    ∧ get_external_trades (some 0) none s = get_external_trades none none s
    ∧ get_external_trades (some 0) (some 0) s = get_external_trades none none s
    ∧ get_external_trades none none s
      = (s.trades.filter (fun t => t.location == "external")).mergeSort
          (fun a b => decide (a.time ≤ b.time)) := by
  refine ⟨rfl, rfl, rfl, ?_⟩
  simp [get_external_trades, tradeTimeCond, truthy]

theorem coerceSetting_not_contains (acc : List (String × SettingVal)) (row : String × String)
    (res : List (String × SettingVal)) (k : String)
    (h1 : ("db_version" == k) = false)
    (h2 : ("last_write_ts" == k) = false)
    (h3 : ("premium_should_sync" == k) = false)
    (h4 : ("last_data_upload_ts" == k) = false)
    (h5 : (row.1 == k) = false)
    (h : coerceSetting acc row = some res)
    (hacc : dictContains acc k = false) :
    dictContains res k = false := by
  rw [coerceSetting] at h
  split at h
  · rcases Option.map_eq_some'.mp h with ⟨i, hi, hres⟩
    rw [← hres, dictContains_dictInsert_of_ne _ _ _ _ h1]
    exact hacc
  · split at h
    · rcases Option.map_eq_some'.mp h with ⟨i, hi, hres⟩
      rw [← hres, dictContains_dictInsert_of_ne _ _ _ _ h2]
      exact hacc
    · split at h
      · have hres := Option.some.inj h
        rw [← hres, dictContains_dictInsert_of_ne _ _ _ _ h3]
        exact hacc
      · split at h
        · rcases Option.map_eq_some'.mp h with ⟨i, hi, hres⟩
          rw [← hres, dictContains_dictInsert_of_ne _ _ _ _ h4]
          exact hacc
        · split at h
          · next hcond =>
            rcases Option.map_eq_some'.mp h with ⟨i, hi, hres⟩
            have hrow : row.1 = "ui_floating_precision" := by simpa using hcond
            have hui : ("ui_floating_precision" == k) = false := by
              rw [← hrow]
              exact h5
            rw [← hres, dictContains_dictInsert_of_ne _ _ _ _ hui]
            exact hacc
          · have hres := Option.some.inj h
            rw [← hres, dictContains_dictInsert_of_ne _ _ _ _ h5]
            exact hacc

theorem foldlM_coerce_not_contains (rows : List (String × String)) :
    ∀ (acc res : List (String × SettingVal)) (k : String),
      ("db_version" == k) = false →
      ("last_write_ts" == k) = false →
      ("premium_should_sync" == k) = false →
      ("last_data_upload_ts" == k) = false →
      (∀ r ∈ rows, (r.1 == k) = false) →
      rows.foldlM coerceSetting acc = some res →
      dictContains acc k = false →
      dictContains res k = false := by
  induction rows with
  | nil =>
    intro acc res k h1 h2 h3 h4 h5 h hacc
    have hae : acc = res := by simpa using h
    rw [← hae]
    exact hacc
  | cons r rows ih =>
    intro acc res k h1 h2 h3 h4 h5 h hacc
    simp only [List.foldlM_cons] at h
    rcases Option.bind_eq_some.mp h with ⟨acc', hacc', hrest⟩
    refine ih acc' res k h1 h2 h3 h4 (fun q hq => h5 q (List.mem_cons_of_mem r hq)) hrest ?_
    exact coerceSetting_not_contains acc r acc' k h1 h2 h3 h4
      (h5 r (List.mem_cons_self r rows)) hacc' hacc

theorem fillDefaults_defaults (res : List (String × SettingVal))
    (hh : dictContains res "historical_data_start" = false)
    (he : dictContains res "eth_rpc_port" = false)
    (hu : dictContains res "ui_floating_precision" = false) :
    dictGet (fillDefaults res) "historical_data_start" = some (.strv DEFAULT_START_DATE)
    ∧ dictGet (fillDefaults res) "eth_rpc_port" = some (.strv "8545")
    ∧ dictGet (fillDefaults res) "ui_floating_precision"
        = some (.intv DEFAULT_UI_FLOATING_PRECISION) := by
  simp only [fillDefaults, hh, Bool.false_eq_true, if_false]
  have he1 : dictContains
      (dictInsert res "historical_data_start" (SettingVal.strv DEFAULT_START_DATE))
      "eth_rpc_port" = false := by
    rw [dictContains_dictInsert_of_ne _ _ _ _ (by decide)]
    exact he
  simp only [he1, Bool.false_eq_true, if_false]
  have hu1 : dictContains
      (dictInsert (dictInsert res "historical_data_start" (SettingVal.strv DEFAULT_START_DATE))
        "eth_rpc_port" (SettingVal.strv "8545"))
      "ui_floating_precision" = false := by
    rw [dictContains_dictInsert_of_ne _ _ _ _ (by decide),
      dictContains_dictInsert_of_ne _ _ _ _ (by decide)]
    exact hu
  simp only [hu1, Bool.false_eq_true, if_false]
  refine ⟨?_, ?_, ?_⟩
  · rw [dictGet_dictInsert_of_ne _ _ _ _ (by decide), dictGet_dictInsert_of_ne _ _ _ _ (by decide)]
    exact dictGet_dictInsert_self res "historical_data_start" (SettingVal.strv DEFAULT_START_DATE)
  · rw [dictGet_dictInsert_of_ne _ _ _ _ (by decide)]
    exact dictGet_dictInsert_self _ "eth_rpc_port" (SettingVal.strv "8545")
  · exact dictGet_dictInsert_self _ "ui_floating_precision"
      (SettingVal.intv DEFAULT_UI_FLOATING_PRECISION)

/-- C4: when `historical_data_start`, `eth_rpc_port` and
`ui_floating_precision` were never written, `get_settings` returns the
documented defaults "01/08/2015", "8545" and 2, and the call leaves the
database state unchanged: the defaults are filled in only at read time. -/
theorem get_settings_read_time_defaults (db : DBState)
    (h1 : ∀ r ∈ db.settings, (r.1 == "historical_data_start") = false)
    (h2 : ∀ r ∈ db.settings, (r.1 == "eth_rpc_port") = false)
    (h3 : ∀ r ∈ db.settings, (r.1 == "ui_floating_precision") = false)
    (m : List (String × SettingVal)) (hm : get_settings db = some m) :
    dictGet m "historical_data_start" = some (.strv "01/08/2015")
    ∧ dictGet m "eth_rpc_port" = some (.strv "8545")
    ∧ dictGet m "ui_floating_precision" = some (.intv 2)
    ∧ (get_settings_call db).2 = db := by
  unfold get_settings at hm
  rcases Option.map_eq_some'.mp hm with ⟨res, hres, hfill⟩
  have hch : dictContains res "historical_data_start" = false :=
    foldlM_coerce_not_contains db.settings [] res _
      (by decide) (by decide) (by decide) (by decide) h1 hres rfl
  have hce : dictContains res "eth_rpc_port" = false :=
    foldlM_coerce_not_contains db.settings [] res _
      (by decide) (by decide) (by decide) (by decide) h2 hres rfl
  have hcu : dictContains res "ui_floating_precision" = false :=
    foldlM_coerce_not_contains db.settings [] res _
      (by decide) (by decide) (by decide) (by decide) h3 hres rfl
  obtain ⟨g1, g2, g3⟩ := fillDefaults_defaults res hch hce hcu
  rw [← hfill]
  exact ⟨g1, g2, g3, rfl⟩

/-- A small state used to witness C4: one unrelated settings row. -/
def sampleSettingsDB : DBState := { emptyDB with settings := [("main_currency", "EUR")] }

/-- Witness for C4 at `sampleSettingsDB`. -/
theorem get_settings_read_time_defaults_witness :
    dictGet [("main_currency", SettingVal.strv "EUR"),
      ("historical_data_start", SettingVal.strv "01/08/2015"),
      ("eth_rpc_port", SettingVal.strv "8545"),
      ("ui_floating_precision", SettingVal.intv 2)] "historical_data_start"
        = some (.strv "01/08/2015")
    ∧ dictGet [("main_currency", SettingVal.strv "EUR"),
      ("historical_data_start", SettingVal.strv "01/08/2015"),
      ("eth_rpc_port", SettingVal.strv "8545"),
      ("ui_floating_precision", SettingVal.intv 2)] "eth_rpc_port" = some (.strv "8545")
    ∧ dictGet [("main_currency", SettingVal.strv "EUR"),
      ("historical_data_start", SettingVal.strv "01/08/2015"),
      ("eth_rpc_port", SettingVal.strv "8545"),
      ("ui_floating_precision", SettingVal.intv 2)] "ui_floating_precision" = some (.intv 2)
    ∧ (get_settings_call sampleSettingsDB).2 = sampleSettingsDB :=
  get_settings_read_time_defaults sampleSettingsDB
    (by decide) (by decide) (by decide) _ (by decide)

/-- The `trades` table after `edit_external_trade`: the `UPDATE` maps over
every row in both the committed and the zero-rowcount branch (where it
matched nothing). -/
theorem edit_external_trade_trades (tid : Nat) (time : Int)
    (location pair trade_type amount rate fee fee_currency link notes : String) (s : DBState) :
    (edit_external_trade tid time location pair trade_type amount rate fee
        fee_currency link notes s).2.trades
      = s.trades.map (fun t => if t.id == tid then
          { t with time, location, pair, trade_type, amount, rate, fee,
                   fee_currency, link, notes } else t) := by
  unfold edit_external_trade
  split <;> rfl

/-- C6 counterexample: the failure pair actually carries the message
"Tried to edit non existing external trade id" with a capital T, not the
lowercase message the claim states. -/
theorem edit_external_trade_message_cex :
    (edit_external_trade 1 5 "external" "BTC_EUR" "buy" "1" "1" "0" "EUR" "x" "y" emptyDB).1
      = (false, "Tried to edit non existing external trade id")
    ∧ (edit_external_trade 1 5 "external" "BTC_EUR" "buy" "1" "1" "0" "EUR" "x" "y" emptyDB).1
      ≠ (false, "tried to edit non existing external trade id") := by
  exact ⟨by decide, by decide⟩

/-- C6 (amended): on an id matching no stored trade `edit_external_trade`
returns `(False, "Tried to edit non existing external trade id")`, does
not commit and leaves the state unchanged; on a matching id it returns
`(True, "")`, gives the matching trade the new field values and keeps
every other trade. -/
theorem edit_external_trade_spec (s : DBState) (tid : Nat) (time : Int)
    (location pair trade_type amount rate fee fee_currency link notes : String) :
    ((∀ t ∈ s.trades, t.id ≠ tid) →
      edit_external_trade tid time location pair trade_type amount rate fee
          fee_currency link notes s
        = ((false, "Tried to edit non existing external trade id"), s))
    ∧ ((∃ t ∈ s.trades, t.id = tid) →
      (edit_external_trade tid time location pair trade_type amount rate fee
          fee_currency link notes s).1 = (true, "")
      ∧ (∀ t ∈ (edit_external_trade tid time location pair trade_type amount rate fee
            fee_currency link notes s).2.trades, t.id = tid →
          t.time = time ∧ t.location = location ∧ t.pair = pair
          ∧ t.trade_type = trade_type ∧ t.amount = amount ∧ t.rate = rate ∧ t.fee = fee
          ∧ t.fee_currency = fee_currency ∧ t.link = link ∧ t.notes = notes)
      ∧ (∀ t ∈ (edit_external_trade tid time location pair trade_type amount rate fee
            fee_currency link notes s).2.trades, t.id ≠ tid → t ∈ s.trades)) := by
  constructor
  · intro hno
    have hfilter : (s.trades.filter (fun t => t.id == tid)).length = 0 := by
      rw [List.length_eq_zero, List.filter_eq_nil_iff]
      intro t ht
      simp [hno t ht]
    have hupd : s.trades.map (fun t => if t.id == tid then
        { t with time, location, pair, trade_type, amount, rate, fee,
                 fee_currency, link, notes } else t) = s.trades := by
      have hpt : ∀ t ∈ s.trades, (if t.id == tid then
          ({ t with time, location, pair, trade_type, amount, rate, fee,
                    fee_currency, link, notes } : Trade) else t) = t := by
        intro t ht
        simp [hno t ht]
      calc s.trades.map _ = s.trades.map id := List.map_congr_left hpt
      _ = s.trades := List.map_id s.trades
    simp only [edit_external_trade, hfilter]
    split
    · rw [hupd]
    · next hcontra => exact absurd trivial hcontra
  · rintro ⟨t0, ht0, htid⟩
    have hmemf : t0 ∈ s.trades.filter (fun t => t.id == tid) :=
      List.mem_filter.mpr ⟨ht0, by simp [htid]⟩
    have hlen : ¬(s.trades.filter (fun t => t.id == tid)).length = 0 := by
      intro hc
      rw [List.length_eq_zero] at hc
      rw [hc] at hmemf
      cases hmemf
    refine ⟨?_, ?_, ?_⟩
    · simp [edit_external_trade, hlen]
    · intro t htmem htid2
      rw [edit_external_trade_trades] at htmem
      rcases List.mem_map.mp htmem with ⟨u, hu, hmap⟩
      by_cases hcase : (u.id == tid) = true
      · rw [if_pos hcase] at hmap
        rw [← hmap]
        exact ⟨rfl, rfl, rfl, rfl, rfl, rfl, rfl, rfl, rfl, rfl⟩
      · rw [if_neg hcase] at hmap
        exfalso
        apply hcase
        rw [hmap]
        simp [htid2]
    · intro t htmem hne
      rw [edit_external_trade_trades] at htmem
      rcases List.mem_map.mp htmem with ⟨u, hu, hmap⟩
      by_cases hcase : (u.id == tid) = true
      · rw [if_pos hcase] at hmap
        exfalso
        apply hne
        rw [← hmap]
        simpa using hcase
      · rw [if_neg hcase] at hmap
        rw [← hmap]
        exact hu

/-- A one-trade state used to witness C6. -/
def sampleTrade : Trade :=
  { id := 1, time := 150, location := "external", pair := "BTC_EUR", trade_type := "buy",
    amount := "1", rate := "100", fee := "0.1", fee_currency := "EUR", link := "", notes := "" }

/-- The database holding exactly `sampleTrade`. -/
def sampleTradeDB : DBState := { emptyDB with trades := [sampleTrade], next_trade_id := 2 }

/-- Witness for C6: both branches at concrete inputs. -/
theorem edit_external_trade_spec_witness :
    edit_external_trade 2 5 "external" "p" "sell" "2" "9" "0" "EUR" "l" "n" sampleTradeDB
      = ((false, "Tried to edit non existing external trade id"), sampleTradeDB)
    ∧ (edit_external_trade 1 5 "external" "p" "sell" "2" "9" "0" "EUR" "l" "n"
        sampleTradeDB).1 = (true, "") :=
  ⟨(edit_external_trade_spec sampleTradeDB 2 5 "external" "p" "sell" "2" "9" "0" "EUR"
      "l" "n").1 (by decide),
   ((edit_external_trade_spec sampleTradeDB 1 5 "external" "p" "sell" "2" "9" "0" "EUR"
      "l" "n").2 ⟨sampleTrade, List.mem_singleton.mpr rfl, rfl⟩).1⟩

/-- The success branch of `remove_blockchain_account`: when some row
matches, the call returns `.ok` and the surviving rows are the
non-matching ones. -/
theorem remove_blockchain_account_ok (now : Nat) (b a : String) (s : DBState)
    (hlen : ¬(s.blockchain_accounts.filter (fun r => r.1 == b && r.2 == a)).length = 0) :
    ∃ s2, remove_blockchain_account now b a s = .ok s2
      ∧ s2.blockchain_accounts
          = s.blockchain_accounts.filter (fun r => !(r.1 == b && r.2 == a)) := by
  unfold remove_blockchain_account
  rw [if_neg hlen]
  exact ⟨_, rfl, rfl⟩

/-- C8 counterexample: the `InputError` message actually starts with a
capital "Tried", not the lowercase "tried" the claim states. -/
theorem remove_blockchain_account_message_cex :
    remove_blockchain_account 7 "ETH" "0xabc" emptyDB
      = .error (.inputError "Tried to remove non-existing ETH account 0xabc")
    ∧ remove_blockchain_account 7 "ETH" "0xabc" emptyDB
      ≠ .error (.inputError "tried to remove non-existing ETH account 0xabc") := by
  exact ⟨by decide, by decide⟩

/-- C8 (amended): `remove_blockchain_account` fails with `InputError`
"Tried to remove non-existing {blockchain} account {account}" when no
matching row exists; when one exists it succeeds and the surviving rows
are exactly the non-matching ones. -/
theorem remove_blockchain_account_spec (now : Nat) (b a : String) (s : DBState) :
    ((∀ r ∈ s.blockchain_accounts, ¬(r.1 = b ∧ r.2 = a)) →
      remove_blockchain_account now b a s
        = .error (.inputError ("Tried to remove non-existing " ++ b ++ " account " ++ a)))
    ∧ (∀ r0 ∈ s.blockchain_accounts, r0.1 = b → r0.2 = a →
      ∃ s', remove_blockchain_account now b a s = .ok s'
        ∧ (∀ r, r ∈ s'.blockchain_accounts ↔
            r ∈ s.blockchain_accounts ∧ ¬(r.1 = b ∧ r.2 = a))) := by
  constructor
  · intro hno
    have hfilter : (s.blockchain_accounts.filter (fun r => r.1 == b && r.2 == a)).length = 0 := by
      rw [List.length_eq_zero, List.filter_eq_nil_iff]
      intro r hr
      have := hno r hr
      simp only [not_and] at this
      cases hrb : r.1 == b with
      | false => simp [hrb]
      | true =>
        have h1 : r.1 = b := by simpa using hrb
        have h2 : r.2 ≠ a := this h1
        simp [hrb, h2]
    simp [remove_blockchain_account, hfilter]
  · intro r0 hr0 hb ha
    have hmemf : r0 ∈ s.blockchain_accounts.filter (fun r => r.1 == b && r.2 == a) :=
      List.mem_filter.mpr ⟨hr0, by simp [hb, ha]⟩
    have hlen : ¬(s.blockchain_accounts.filter (fun r => r.1 == b && r.2 == a)).length = 0 := by
      intro hc
      rw [List.length_eq_zero] at hc
      rw [hc] at hmemf
      cases hmemf
    obtain ⟨s2, hok, hba⟩ := remove_blockchain_account_ok now b a s hlen
    refine ⟨s2, hok, ?_⟩
    intro r
    rw [hba, List.mem_filter]
    constructor
    · rintro ⟨hmem, hp⟩
      refine ⟨hmem, ?_⟩
      rintro ⟨h1, h2⟩
      simp [h1, h2] at hp
    · rintro ⟨hmem, hp⟩
      refine ⟨hmem, ?_⟩
      simp only [not_and] at hp
      cases hrb : r.1 == b with
      | false => simp [hrb]
      | true =>
        have h1 : r.1 = b := by simpa using hrb
        have h2 : r.2 ≠ a := hp h1
        simp [hrb, h2]

/-- A two-account state used to witness C8. -/
def sampleAccountsDB : DBState :=
  { emptyDB with blockchain_accounts := [("ETH", "0xabc"), ("BTC", "1abc")] }

/-- Witness for C8: both branches at concrete inputs. -/
theorem remove_blockchain_account_spec_witness :
    (∃ s', remove_blockchain_account 7 "ETH" "0xabc" sampleAccountsDB = .ok s'
      ∧ (∀ r, r ∈ s'.blockchain_accounts ↔
          r ∈ sampleAccountsDB.blockchain_accounts ∧ ¬(r.1 = "ETH" ∧ r.2 = "0xabc")))
    ∧ remove_blockchain_account 7 "ETH" "XYZ" sampleAccountsDB
        = .error (.inputError "Tried to remove non-existing ETH account XYZ") :=
  ⟨(remove_blockchain_account_spec 7 "ETH" "0xabc" sampleAccountsDB).2 ("ETH", "0xabc")
      (by decide) rfl rfl,
   (remove_blockchain_account_spec 7 "ETH" "XYZ" sampleAccountsDB).1 (by decide)⟩

/-- The result of `get_external_trades` is sorted ascending by time, for
any bounds: it ends in `ORDER BY time ASC`. -/
theorem get_external_trades_sorted (from_ts to_ts : Option Int) (s : DBState) :
    (get_external_trades from_ts to_ts s).Pairwise (fun u v => u.time ≤ v.time) := by
  have htrans : ∀ a b c : Trade, decide (a.time ≤ b.time) = true →
      decide (b.time ≤ c.time) = true → decide (a.time ≤ c.time) = true := by
    intro a b c h1 h2
    simp only [decide_eq_true_eq] at h1 h2 ⊢
    omega
  have htotal : ∀ a b : Trade,
      (decide (a.time ≤ b.time) || decide (b.time ≤ a.time)) = true := by
    intro a b
    simpa using Int.le_total a.time b.time
  have h : (List.mergeSort
      (s.trades.filter (fun t => t.location == "external" && tradeTimeCond from_ts to_ts t))
      (fun a b => decide (a.time ≤ b.time))).Pairwise
      (fun a b : Trade => decide (a.time ≤ b.time)) :=
    List.sorted_mergeSort htrans htotal _
  exact h.imp (fun hab => by simpa using hab)

/-- C7: with bounds 100 and 200 (both truthy), `get_external_trades`
returns exactly the stored trades with location "external" and
`100 ≤ time ≤ 200` (a permutation of that filter), ordered ascending by
time; each bound is also applicable on its own. -/
theorem get_external_trades_range (s : DBState) :
    ((get_external_trades (some 100) (some 200) s).Perm
        (s.trades.filter (fun t => t.location == "external"
          && (decide ((100 : Int) ≤ t.time) && decide (t.time ≤ (200 : Int)))))
      ∧ (get_external_trades (some 100) (some 200) s).Pairwise (fun u v => u.time ≤ v.time))
    ∧ ((get_external_trades (some 100) none s).Perm
        (s.trades.filter (fun t => t.location == "external" && decide ((100 : Int) ≤ t.time)))
      ∧ (get_external_trades (some 100) none s).Pairwise (fun u v => u.time ≤ v.time))
    ∧ ((get_external_trades none (some 200) s).Perm
        (s.trades.filter (fun t => t.location == "external" && decide (t.time ≤ (200 : Int))))
      ∧ (get_external_trades none (some 200) s).Pairwise (fun u v => u.time ≤ v.time)) :=
  ⟨⟨List.mergeSort_perm _ _, get_external_trades_sorted (some 100) (some 200) s⟩,
   ⟨List.mergeSort_perm _ _, get_external_trades_sorted (some 100) none s⟩,
   ⟨List.mergeSort_perm _ _, get_external_trades_sorted none (some 200) s⟩⟩

/-- A state whose stored `last_write_ts` is 5, used to refute C1. -/
def lastWriteFiveDB : DBState := { emptyDB with settings := [("last_write_ts", "5")] }

/-- C1 counterexample: `add_to_ignored_assets` — one of the operations
the claim lists — touches only `multisettings`; a successful call leaves
the settings table, and hence `last_write_ts`, exactly as it was (here
5), instead of updating it to the current time of the call. -/
theorem last_write_cex :
    (add_to_ignored_assets "BTC" lastWriteFiveDB).settings = lastWriteFiveDB.settings
    ∧ get_last_write_ts (add_to_ignored_assets "BTC" lastWriteFiveDB) = some 5 := by
  refine ⟨rfl, ?_⟩
  show ("5" : String).toNat? = some 5
  rw [show ("5" : String) = Nat.repr 5 from rfl]
  exact toNat?_repr 5

/-- C1 (amended): a successful call of `set_settings`,
`set_main_currency`, `write_owned_tokens`, `add_multiple_balances`,
`add_multiple_location_data`, `add_blockchain_account`,
`remove_blockchain_account`, `add_fiat_balance`, `remove_fiat_balance`,
`add_exchange` or `remove_exchange` sets `last_write_ts` to the current
time `now`; whereas `add_to_ignored_assets`,
`remove_from_ignored_assets`, `add_external_trade`,
`edit_external_trade`, `delete_external_trade` and the premium bootstrap
write `set_rotkehlchen_premium` leave `last_write_ts` unchanged. -/
theorem last_write_amended (s : DBState) (now : Nat)
    (kvs : List (String × String)) (cur asset b a cam amt name key secret : String)
    (tokens : List String) (bals : List (Int × String × String × String))
    (locs : List (Int × String × String)) (tid : Nat) (ttime : Int)
    (loc pr ty am ra fe fc li no : String) :
    get_last_write_ts (set_settings now kvs s) = some now
    ∧ get_last_write_ts (set_main_currency now cur s) = some now
    ∧ get_last_write_ts (write_owned_tokens now tokens s) = some now
    ∧ get_last_write_ts (add_multiple_balances now bals s) = some now
    ∧ get_last_write_ts (add_multiple_location_data now locs s) = some now
    ∧ get_last_write_ts (add_blockchain_account now b a s) = some now
    ∧ (∀ s2, remove_blockchain_account now b a s = .ok s2 → get_last_write_ts s2 = some now)
    ∧ get_last_write_ts (add_fiat_balance now cam amt s) = some now
    ∧ get_last_write_ts (remove_fiat_balance now cam s) = some now
    ∧ (∀ s2, add_exchange now name key secret s = .ok s2 → get_last_write_ts s2 = some now)
    ∧ get_last_write_ts (remove_exchange now name s) = some now
    ∧ get_last_write_ts (add_to_ignored_assets asset s) = get_last_write_ts s
    ∧ get_last_write_ts (remove_from_ignored_assets asset s) = get_last_write_ts s
    ∧ get_last_write_ts (add_external_trade ttime loc pr ty am ra fe fc li no s)
        = get_last_write_ts s
    ∧ get_last_write_ts (edit_external_trade tid ttime loc pr ty am ra fe fc li no s).2
        = get_last_write_ts s
    ∧ get_last_write_ts (delete_external_trade tid s).2 = get_last_write_ts s
    ∧ get_last_write_ts (set_rotkehlchen_premium key secret s) = get_last_write_ts s := by
  refine ⟨get_last_write_ts_update now _, get_last_write_ts_update now _,
    get_last_write_ts_update now _, get_last_write_ts_update now _,
    get_last_write_ts_update now _, get_last_write_ts_update now _,
    ?rba, get_last_write_ts_update now _, get_last_write_ts_update now _,
    ?aex, get_last_write_ts_update now _, rfl, rfl, rfl, ?edit, ?del, rfl⟩
  case rba =>
    intro s2 h
    unfold remove_blockchain_account at h
    split at h
    · cases h
    · rw [← Except.ok.inj h]
      exact get_last_write_ts_update now _
  case aex =>
    intro s2 h
    unfold add_exchange at h
    split at h
    · cases h
    · rw [← Except.ok.inj h]
      exact get_last_write_ts_update now _
  case edit =>
    simp only [edit_external_trade]
    split <;> rfl
  case del =>
    simp only [delete_external_trade]
    split <;> rfl

/-- The state after removing "ETH"/"0xabc" from `sampleAccountsDB` at
time 7. -/
def rmResultDB : DBState :=
  { emptyDB with
    settings := [("last_write_ts", "7")]
    blockchain_accounts := [("BTC", "1abc")] }

/-- The state after `add_exchange "kraken"` on `sampleAccountsDB` at
time 7. -/
def aeResultDB : DBState :=
  { emptyDB with
    settings := [("last_write_ts", "7")]
    blockchain_accounts := [("ETH", "0xabc"), ("BTC", "1abc")]
    user_credentials := [("kraken", "k", "sec")] }

/-- Witness for C1 (amended), discharging the two success hypotheses at
concrete inputs. -/
theorem last_write_amended_witness :
    get_last_write_ts rmResultDB = some 7 ∧ get_last_write_ts aeResultDB = some 7 :=
  ⟨(last_write_amended sampleAccountsDB 7 [] "" "" "ETH" "0xabc" "" "" "kraken" "k" "sec"
      [] [] [] 1 0 "" "" "" "" "" "" "" "" "").2.2.2.2.2.2.1 rmResultDB (by decide),
   (last_write_amended sampleAccountsDB 7 [] "" "" "ETH" "0xabc" "" "" "kraken" "k" "sec"
      [] [] [] 1 0 "" "" "" "" "" "" "" "" "").2.2.2.2.2.2.2.2.2.1 aeResultDB (by decide)⟩

end RotkiDB
